import Mathlib

/-!
# Verification of the asteroid broad-phase collision engine

Shallow embedding of `main.py`: a collision detector for moving circular
bodies that advances time in fixed steps, buckets bodies into a uniform
grid (spatial hashing), compares each occupied cell against itself and its
8 neighbours, and collects deduplicated collision events.

Real-valued quantities of the program are modelled exactly as rationals
(`ℚ`); the only irrational operation of the source, `math.sqrt`, appears
in the detector only through the comparison `sqrt d < r1 + r2`, which is
rendered by the equivalent rational predicate `0 < r1 + r2 ∧ d < (r1+r2)^2`
(the equivalence over `ℝ` is proved in `collides_iff_sqrt_lt` below).
-/

/-- A body record `(id, x, y, r, vx, vy)` as produced by `read_asteroids`. -/
structure Body where
  id : ℤ
  x : ℚ
  y : ℚ
  r : ℚ
  vx : ℚ
  vy : ℚ
deriving DecidableEq, Repr

/-- A per-tick snapshot `(id, new_x, new_y, r)` as stored in the grid
(`main.py`, line 73). -/
structure Snap where
  id : ℤ
  x : ℚ
  y : ℚ
  r : ℚ
deriving DecidableEq, Repr

/-- A collision event `(time, id1, id2)`. -/
abbrev CollisionEvent : Type := ℚ × ℤ × ℤ

/-- `TIME_STEP = 0.1` (`main.py`, line 6). -/
def TIME_STEP : ℚ := 1/10

/-- `MAX_TIME = 10.0` (`main.py`, line 7). -/
def MAX_TIME : ℚ := 10

/-- `GRID_CELL_SIZE = 50` (`main.py`, line 8). -/
def GRID_CELL_SIZE : ℚ := 50

/-- `get_hash_cell` (`main.py`, lines 45-49): `(int(x // cell_size), int(y // cell_size))`.
Python `//` on floats is floor division, and `int` of the integer-valued
quotient is exact, so the cell key is the pair of floors. -/
def get_hash_cell (x y cell_size : ℚ) : ℤ × ℤ :=
  (⌊x / cell_size⌋, ⌊y / cell_size⌋)

/-- The position update of `simulate_motion` (`main.py`, lines 70-73):
`new_x, new_y = x + vx * t, y + vy * t`, keeping `(id_, new_x, new_y, r)`. -/
def snap_at (a : Body) (t : ℚ) : Snap :=
  ⟨a.id, a.x + a.vx * t, a.y + a.vy * t, a.r⟩

/-- The list of tick-`t` snapshots of the store, in store order. -/
def snaps (asteroids : List Body) (t : ℚ) : List Snap :=
  asteroids.map (fun a => snap_at a t)

/-- `cell = get_hash_cell(new_x, new_y, GRID_CELL_SIZE)` (`main.py`, line 72). -/
def cell_of (s : Snap) : ℤ × ℤ :=
  get_hash_cell s.x s.y GRID_CELL_SIZE

/-- The grid built at lines 66-73 of `main.py`: each body is appended to the
bucket of its cell, so a bucket holds exactly the snapshots whose cell key
matches, in store order. -/
def gridAt (asteroids : List Body) (t : ℚ) : ℤ × ℤ → List Snap :=
  fun c => (snaps asteroids t).filter (fun s => cell_of s = c)

/-- The keys of the `defaultdict` grid: the occupied cells, first occurrence
order, no duplicates (`for cell in grid`, `main.py`, line 78). -/
def occupied_cells (asteroids : List Body) (t : ℚ) : List (ℤ × ℤ) :=
  ((snaps asteroids t).map cell_of).dedup

/-- The collision test of `check_collisions_in_cell` (`main.py`, lines 119-120):
`dist = math.sqrt((x2-x1)**2 + (y2-y1)**2); dist < r1 + r2`.
Since `sqrt d ≥ 0`, the float comparison `sqrt d < s` holds iff
`0 < s ∧ d < s^2`, which is the exact rational form used here
(see `collides_iff_sqrt_lt`). -/
def collides (a1 a2 : Snap) : Prop :=
  0 < a1.r + a2.r ∧ (a2.x - a1.x)^2 + (a2.y - a1.y)^2 < (a1.r + a2.r)^2

instance (a1 a2 : Snap) : Decidable (collides a1 a2) := by
  unfold collides; infer_instance

/-- The `neighbors` list of `check_collisions_in_cell` (`main.py`, lines 98-103):
the cell itself plus its 8 axis/diagonal neighbours. -/
def neighbor_cells (cell : ℤ × ℤ) : List (ℤ × ℤ) :=
  [cell,
   (cell.1 - 1, cell.2 - 1), (cell.1, cell.2 - 1), (cell.1 + 1, cell.2 - 1),
   (cell.1 - 1, cell.2), (cell.1 + 1, cell.2),
   (cell.1 - 1, cell.2 + 1), (cell.1, cell.2 + 1), (cell.1 + 1, cell.2 + 1)]

/-- The inner-loop body of `check_collisions_in_cell` (`main.py`, lines 113-123):
skip unless `id1 < id2` (line 116 `if id1 >= id2: continue`), then emit
`(t, id1, id2)` when the distance test passes. -/
def pair_event (t : ℚ) (a1 a2 : Snap) : Option CollisionEvent :=
  if a1.id < a2.id ∧ collides a1 a2 then some (t, a1.id, a2.id) else none

/-- `check_collisions_in_cell` (`main.py`, lines 87-126): for each occupied
neighbour (`if neighbor not in grid: continue`, line 109), compare every
`asteroid1` of the scanned cell with every `asteroid2` of the neighbour and
collect the qualifying events as a set.  The source's `seen_collisions`
guard (lines 121-124) only prevents re-adding an element already present in
the local set, which is the identity on sets, so the returned set is the
set of collected events. -/
def check_collisions_in_cell (grid : ℤ × ℤ → List Snap) (cell : ℤ × ℤ) (t : ℚ) :
    Finset CollisionEvent :=
  (((neighbor_cells cell).filter (fun nb => !(grid nb).isEmpty)).flatMap (fun nb =>
    (grid cell).flatMap (fun a1 =>
      (grid nb).filterMap (fun a2 => pair_event t a1 a2)))).toFinset

/-- Round half to even, as Python's `round` does on an exactly representable
value. -/
def round_half_even (q : ℚ) : ℤ :=
  if q - ⌊q⌋ < 1/2 then ⌊q⌋
  else if 1/2 < q - ⌊q⌋ then ⌊q⌋ + 1
  else if ⌊q⌋ % 2 = 0 then ⌊q⌋ else ⌊q⌋ + 1

/-- Python `round(q, 1)` (`main.py`, line 65): round to the nearest multiple
of `1/10`, half to even. -/
def py_round1 (q : ℚ) : ℚ :=
  (round_half_even (10 * q) : ℚ) / 10

/-- Python `int()` on a real value: truncation toward zero. -/
def py_int (q : ℚ) : ℤ :=
  if 0 ≤ q then ⌊q⌋ else -⌊-q⌋

/-- `time_steps = int(max_time / time_step)` (`main.py`, line 62). -/
def num_ticks (time_step max_time : ℚ) : ℤ :=
  py_int (max_time / time_step)

/-- `t = round(step * time_step, 1)` (`main.py`, line 65). -/
def tick_time (time_step : ℚ) (step : ℕ) : ℚ :=
  py_round1 ((step : ℚ) * time_step)

/-- One iteration of the tick loop (`main.py`, lines 75-81): evaluate every
occupied cell and union the per-cell result sets into one tick-level set.
Thread fan-out only distributes the per-cell calls; the merged union is
order-independent, so it is modelled directly. -/
def tick_collisions (asteroids : List Body) (t : ℚ) : Finset CollisionEvent :=
  (occupied_cells asteroids t).foldr
    (fun cell acc => check_collisions_in_cell (gridAt asteroids t) cell t ∪ acc) ∅

/-- The global `collisions` set after the loop over
`range(time_steps + 1)` (`main.py`, lines 61-81).  `range` of a
non-positive bound is empty, matching `Int.toNat`. -/
def collision_set (asteroids : List Body) (time_step max_time : ℚ) : Finset CollisionEvent :=
  (List.range (num_ticks time_step max_time + 1).toNat).foldr
    (fun step acc => tick_collisions asteroids (tick_time time_step step) ∪ acc) ∅

/-- The ascending order used by Python's `sorted` on `(time, id1, id2)`
tuples: lexicographic on the triple. -/
def ev_le (e f : CollisionEvent) : Prop :=
  e.1 < f.1 ∨ (e.1 = f.1 ∧ (e.2.1 < f.2.1 ∨ (e.2.1 = f.2.1 ∧ e.2.2 ≤ f.2.2)))

instance : DecidableRel ev_le := fun e f => by
  unfold ev_le; infer_instance

instance : IsTrans CollisionEvent ev_le := by
  constructor
  intro a b c hab hbc
  unfold ev_le at *
  rcases hab with h1 | ⟨h1, h2⟩ <;> rcases hbc with h3 | ⟨h3, h4⟩
  · exact Or.inl (h1.trans h3)
  · exact Or.inl (h3 ▸ h1)
  · exact Or.inl (h1 ▸ h3)
  · refine Or.inr ⟨h1.trans h3, ?_⟩
    rcases h2 with h2 | ⟨h2, h5⟩ <;> rcases h4 with h4 | ⟨h4, h6⟩
    · exact Or.inl (h2.trans h4)
    · exact Or.inl (h4 ▸ h2)
    · exact Or.inl (h2 ▸ h4)
    · exact Or.inr ⟨h2.trans h4, h5.trans h6⟩

instance : IsAntisymm CollisionEvent ev_le := by
  constructor
  intro a b hab hba
  unfold ev_le at *
  rcases hab with h1 | ⟨h1, h2⟩ <;> rcases hba with h3 | ⟨h3, h4⟩
  · exact absurd (h1.trans h3) (lt_irrefl _)
  · exact absurd h1 (h3 ▸ lt_irrefl _)
  · exact absurd h3 (h1 ▸ lt_irrefl _)
  · rcases h2 with h2 | ⟨h2, h5⟩ <;> rcases h4 with h4 | ⟨h4, h6⟩
    · exact absurd (h2.trans h4) (lt_irrefl _)
    · exact absurd h2 (h4 ▸ lt_irrefl _)
    · exact absurd h4 (h2 ▸ lt_irrefl _)
    · exact Prod.ext h1 (Prod.ext h2 (le_antisymm h5 h6))

instance : IsTotal CollisionEvent ev_le := by
  constructor
  intro a b
  unfold ev_le
  rcases lt_trichotomy a.1 b.1 with h | h | h
  · exact Or.inl (Or.inl h)
  · rcases lt_trichotomy a.2.1 b.2.1 with h2 | h2 | h2
    · exact Or.inl (Or.inr ⟨h, Or.inl h2⟩)
    · rcases le_total a.2.2 b.2.2 with h3 | h3
      · exact Or.inl (Or.inr ⟨h, Or.inr ⟨h2, h3⟩⟩)
      · exact Or.inr (Or.inr ⟨h.symm, Or.inr ⟨h2.symm, h3⟩⟩)
    · exact Or.inr (Or.inr ⟨h.symm, Or.inl h2⟩)
  · exact Or.inr (Or.inl h)

/-- `simulate_motion` (`main.py`, lines 53-83): run every tick, accumulate
the global collision set, and return `sorted(collisions)`. -/
def simulate_motion (asteroids : List Body) (time_step max_time : ℚ) : List CollisionEvent :=
  Finset.sort ev_le (collision_set asteroids time_step max_time)

/-- Spec-side baseline, following the spec's words: "brute-force all-pairs
distance check over the same tick's positions", with pairs taken in the
canonical `idLow < idHigh` orientation and the same strict distance test. -/
def brute_force_collisions (asteroids : List Body) (t : ℚ) : Finset CollisionEvent :=
  ((snaps asteroids t).flatMap (fun a =>
    (snaps asteroids t).filterMap (fun b =>
      if a.id < b.id ∧ collides a b then some (t, a.id, b.id) else none))).toFinset

-- A quick sanity evaluation of the embedding on a concrete store.
example :
    simulate_motion [⟨1, 0, 0, 1, 0, 0⟩, ⟨2, 1, 0, 1, 0, 0⟩] 1 0
      = [(0, 1, 2)] := by
  with_unfolding_all decide

example :
    simulate_motion [⟨1, 0, 0, 1, 0, 0⟩, ⟨2, 3, 0, 1, 0, 0⟩] 1 0 = [] := by
  with_unfolding_all decide

/-! ## Membership characterisations of the embedded pipeline -/

theorem mem_foldr_union {α β : Type} [DecidableEq β] (l : List α) (f : α → Finset β) (e : β) :
    e ∈ l.foldr (fun x acc => f x ∪ acc) ∅ ↔ ∃ x ∈ l, e ∈ f x := by
  induction l with
  | nil => simp
  | cons y ys ih => simp [ih]

theorem pair_event_eq_some {t : ℚ} {a1 a2 : Snap} {e : CollisionEvent} :
    pair_event t a1 a2 = some e ↔
      (a1.id < a2.id ∧ collides a1 a2) ∧ e = (t, a1.id, a2.id) := by
  unfold pair_event
  split
  · simp_all [eq_comm]
  · simp_all

theorem mem_gridAt {asteroids : List Body} {t : ℚ} {c : ℤ × ℤ} {s : Snap} :
    s ∈ gridAt asteroids t c ↔ s ∈ snaps asteroids t ∧ cell_of s = c := by
  simp [gridAt, List.mem_filter]

theorem mem_occupied_cells {asteroids : List Body} {t : ℚ} {c : ℤ × ℤ} :
    c ∈ occupied_cells asteroids t ↔ ∃ s ∈ snaps asteroids t, cell_of s = c := by
  simp [occupied_cells, List.mem_dedup]

theorem mem_check_collisions_in_cell {grid : ℤ × ℤ → List Snap} {cell : ℤ × ℤ} {t : ℚ}
    {e : CollisionEvent} :
    e ∈ check_collisions_in_cell grid cell t ↔
      ∃ nb ∈ neighbor_cells cell, grid nb ≠ [] ∧
        ∃ a1 ∈ grid cell, ∃ a2 ∈ grid nb,
          a1.id < a2.id ∧ collides a1 a2 ∧ e = (t, a1.id, a2.id) := by
  unfold check_collisions_in_cell
  simp only [List.mem_toFinset, List.mem_flatMap, List.mem_filterMap, List.mem_filter,
    pair_event_eq_some, Bool.not_eq_true', ← List.isEmpty_iff, Bool.not_eq_true]
  constructor
  · rintro ⟨nb, ⟨hnb, hocc⟩, a1, ha1, a2, ha2, ⟨⟨hid, hcol⟩, he⟩⟩
    exact ⟨nb, hnb, by simpa using hocc, a1, ha1, a2, ha2, hid, hcol, he⟩
  · rintro ⟨nb, hnb, hocc, a1, ha1, a2, ha2, hid, hcol, he⟩
    exact ⟨nb, ⟨hnb, by simpa using hocc⟩, a1, ha1, a2, ha2, ⟨⟨hid, hcol⟩, he⟩⟩

theorem mem_tick_collisions {asteroids : List Body} {t : ℚ} {e : CollisionEvent} :
    e ∈ tick_collisions asteroids t ↔
      ∃ a ∈ snaps asteroids t, ∃ b ∈ snaps asteroids t,
        cell_of b ∈ neighbor_cells (cell_of a) ∧ a.id < b.id ∧ collides a b ∧
          e = (t, a.id, b.id) := by
  unfold tick_collisions
  rw [mem_foldr_union]
  constructor
  · rintro ⟨c, hc, he⟩
    rw [mem_check_collisions_in_cell] at he
    obtain ⟨nb, hnb, -, a1, ha1, a2, ha2, hid, hcol, he⟩ := he
    rw [mem_gridAt] at ha1 ha2
    exact ⟨a1, ha1.1, a2, ha2.1, by rw [ha1.2, ha2.2]; exact hnb, hid, hcol, he⟩
  · rintro ⟨a, ha, b, hb, hnb, hid, hcol, he⟩
    refine ⟨cell_of a, mem_occupied_cells.mpr ⟨a, ha, rfl⟩, ?_⟩
    rw [mem_check_collisions_in_cell]
    refine ⟨cell_of b, hnb, ?_, a, mem_gridAt.mpr ⟨ha, rfl⟩, b, mem_gridAt.mpr ⟨hb, rfl⟩,
      hid, hcol, he⟩
    intro hempty
    have : b ∈ gridAt asteroids t (cell_of b) := mem_gridAt.mpr ⟨hb, rfl⟩
    rw [hempty] at this
    simp at this

theorem mem_collision_set {asteroids : List Body} {time_step max_time : ℚ}
    {e : CollisionEvent} :
    e ∈ collision_set asteroids time_step max_time ↔
      ∃ step < (num_ticks time_step max_time + 1).toNat,
        e ∈ tick_collisions asteroids (tick_time time_step step) := by
  unfold collision_set
  rw [mem_foldr_union]
  simp [List.mem_range]

theorem mem_simulate_motion {asteroids : List Body} {time_step max_time : ℚ}
    {e : CollisionEvent} :
    e ∈ simulate_motion asteroids time_step max_time ↔
      ∃ step < (num_ticks time_step max_time + 1).toNat,
        e ∈ tick_collisions asteroids (tick_time time_step step) := by
  rw [simulate_motion, Finset.mem_sort, mem_collision_set]

theorem mem_brute_force_collisions {asteroids : List Body} {t : ℚ} {e : CollisionEvent} :
    e ∈ brute_force_collisions asteroids t ↔
      ∃ a ∈ snaps asteroids t, ∃ b ∈ snaps asteroids t,
        a.id < b.id ∧ collides a b ∧ e = (t, a.id, b.id) := by
  unfold brute_force_collisions
  simp only [List.mem_toFinset, List.mem_flatMap, List.mem_filterMap]
  constructor
  · rintro ⟨a, ha, b, hb, he⟩
    split at he
    · exact ⟨a, ha, b, hb, by simp_all, by simp_all, by simp_all [eq_comm]⟩
    · exact absurd he (by simp)
  · rintro ⟨a, ha, b, hb, hid, hcol, he⟩
    exact ⟨a, ha, b, hb, by rw [if_pos ⟨hid, hcol⟩, he]⟩

theorem mem_snaps {asteroids : List Body} {t : ℚ} {s : Snap} :
    s ∈ snaps asteroids t ↔ ∃ a ∈ asteroids, snap_at a t = s := by
  simp [snaps]

/-! ## The distance test versus the real square root -/

/-- The rational rendering `collides` is exactly the source's float test
`math.sqrt((x2-x1)**2 + (y2-y1)**2) < r1 + r2` read in exact real
arithmetic. -/
theorem collides_iff_sqrt_lt (a1 a2 : Snap) :
    collides a1 a2 ↔
      Real.sqrt (((a2.x - a1.x)^2 + (a2.y - a1.y)^2 : ℚ) : ℝ) < ((a1.r + a2.r : ℚ) : ℝ) := by
  constructor
  · rintro ⟨hs, hd⟩
    have hs' : (0 : ℝ) < ((a1.r + a2.r : ℚ) : ℝ) := by exact_mod_cast hs
    refine (Real.sqrt_lt' hs').mpr ?_
    have : (((a2.x - a1.x)^2 + (a2.y - a1.y)^2 : ℚ) : ℝ) < (((a1.r + a2.r)^2 : ℚ) : ℝ) := by
      exact_mod_cast hd
    calc (((a2.x - a1.x)^2 + (a2.y - a1.y)^2 : ℚ) : ℝ)
        < (((a1.r + a2.r)^2 : ℚ) : ℝ) := this
      _ = ((a1.r + a2.r : ℚ) : ℝ) ^ 2 := by push_cast; ring
  · intro h
    have hd0 : (0 : ℝ) ≤ (((a2.x - a1.x)^2 + (a2.y - a1.y)^2 : ℚ) : ℝ) := by positivity
    have hs' : (0 : ℝ) < ((a1.r + a2.r : ℚ) : ℝ) :=
      lt_of_le_of_lt (Real.sqrt_nonneg _) h
    have hd : (((a2.x - a1.x)^2 + (a2.y - a1.y)^2 : ℚ) : ℝ)
        < ((a1.r + a2.r : ℚ) : ℝ) ^ 2 := (Real.sqrt_lt' hs').mp h
    constructor
    · exact_mod_cast hs'
    · have : (((a2.x - a1.x)^2 + (a2.y - a1.y)^2 : ℚ) : ℝ) < (((a1.r + a2.r)^2 : ℚ) : ℝ) := by
        calc (((a2.x - a1.x)^2 + (a2.y - a1.y)^2 : ℚ) : ℝ)
            < ((a1.r + a2.r : ℚ) : ℝ) ^ 2 := hd
          _ = (((a1.r + a2.r)^2 : ℚ) : ℝ) := by push_cast; ring
      exact_mod_cast this

/-! ## Geometry of the grid: colliding pairs with small radii are neighbours -/

theorem abs_coord_lt_of_collides {a b : Snap} (h : collides a b)
    (hr : a.r + b.r ≤ GRID_CELL_SIZE) :
    |b.x - a.x| < 50 ∧ |b.y - a.y| < 50 := by
  obtain ⟨hs, hd⟩ := h
  rw [GRID_CELL_SIZE] at hr
  have hx2 : (b.x - a.x)^2 < 50^2 := by nlinarith [sq_nonneg (b.y - a.y)]
  have hy2 : (b.y - a.y)^2 < 50^2 := by nlinarith [sq_nonneg (b.x - a.x)]
  constructor
  · rw [abs_lt]; constructor <;> nlinarith
  · rw [abs_lt]; constructor <;> nlinarith

theorem floor_div_adjacent {u v : ℚ} (h : |u - v| < 50) :
    |⌊u / 50⌋ - ⌊v / 50⌋| ≤ 1 := by
  rw [abs_lt] at h
  have h50 : (0 : ℚ) < 50 := by norm_num
  have d1 : (u - v) / 50 < 1 := (div_lt_one h50).mpr h.2
  have d2 : (v - u) / 50 < 1 := (div_lt_one h50).mpr (by linarith [h.1])
  rw [sub_div] at d1 d2
  have f1 : ⌊u / 50⌋ ≤ ⌊v / 50⌋ + 1 := by
    have := Int.floor_le_floor (le_of_lt (by linarith : u / 50 < v / 50 + 1))
    rwa [Int.floor_add_one] at this
  have f2 : ⌊v / 50⌋ ≤ ⌊u / 50⌋ + 1 := by
    have := Int.floor_le_floor (le_of_lt (by linarith : v / 50 < u / 50 + 1))
    rwa [Int.floor_add_one] at this
  rw [abs_le]
  omega

theorem mem_neighbor_cells_of_adjacent {c d : ℤ × ℤ}
    (h1 : |d.1 - c.1| ≤ 1) (h2 : |d.2 - c.2| ≤ 1) :
    d ∈ neighbor_cells c := by
  obtain ⟨dx, dy⟩ := d
  obtain ⟨cx, cy⟩ := c
  rw [abs_le] at h1 h2
  simp only [neighbor_cells, List.mem_cons, List.mem_singleton, Prod.mk.injEq]
  have hx : dx = cx - 1 ∨ dx = cx ∨ dx = cx + 1 := by omega
  have hy : dy = cy - 1 ∨ dy = cy ∨ dy = cy + 1 := by omega
  rcases hx with hx | hx | hx <;> rcases hy with hy | hy | hy <;> subst hx <;> subst hy <;>
    simp

/-- A colliding pair whose radius sum fits in one cell occupies neighbouring
cells, so the neighbourhood scan reaches it. -/
theorem cell_adjacent_of_collides {a b : Snap} (h : collides a b)
    (hr : a.r + b.r ≤ GRID_CELL_SIZE) :
    cell_of b ∈ neighbor_cells (cell_of a) := by
  obtain ⟨hx, hy⟩ := abs_coord_lt_of_collides h hr
  apply mem_neighbor_cells_of_adjacent <;>
    simp only [cell_of, get_hash_cell, GRID_CELL_SIZE] <;>
    apply floor_div_adjacent
  · exact hx
  · exact hy

/-! ## Grid-based evaluation versus the brute-force baseline -/

/-- The grid scan never fabricates: every event it reports passes the
all-pairs distance check. -/
theorem tick_collisions_subset_brute_force (asteroids : List Body) (t : ℚ) :
    tick_collisions asteroids t ⊆ brute_force_collisions asteroids t := by
  intro e he
  rw [mem_tick_collisions] at he
  obtain ⟨a, ha, b, hb, -, hid, hcol, he⟩ := he
  exact mem_brute_force_collisions.mpr ⟨a, ha, b, hb, hid, hcol, he⟩

/-- The reachability direction: a colliding pair whose radius sum is at most
the cell size is reported by the grid scan. -/
theorem mem_tick_collisions_of_collides {asteroids : List Body} {t : ℚ} {a b : Snap}
    (ha : a ∈ snaps asteroids t) (hb : b ∈ snaps asteroids t)
    (hid : a.id < b.id) (hcol : collides a b) (hr : a.r + b.r ≤ GRID_CELL_SIZE) :
    (t, a.id, b.id) ∈ tick_collisions asteroids t :=
  mem_tick_collisions.mpr
    ⟨a, ha, b, hb, cell_adjacent_of_collides hcol hr, hid, hcol, rfl⟩

/-- Two stationary bodies of radius 300 placed 500 apart: they overlap
(500 < 600) but live 10 cells apart, so the neighbourhood scan never
compares them. -/
def far_overlap_store : List Body :=
  [⟨1, 0, 0, 300, 0, 0⟩, ⟨2, 500, 0, 300, 0, 0⟩]

/-- Two stationary bodies of radius 1 placed 1 apart: overlapping, in
adjacent cells. -/
def near_pair_store : List Body :=
  [⟨1, 0, 0, 1, 0, 0⟩, ⟨2, 1, 0, 1, 0, 0⟩]

/-- C1, counterexample: for the store `far_overlap_store` at tick time 0 the
brute-force baseline contains the pair (1,2) but the grid-based evaluator
misses it, so the two sets differ — the claimed unconditional equality is
false. -/
theorem c1_counterexample :
    (((0 : ℚ), (1 : ℤ), (2 : ℤ)) ∈ brute_force_collisions far_overlap_store 0) ∧
    (((0 : ℚ), (1 : ℤ), (2 : ℤ)) ∉ tick_collisions far_overlap_store 0) ∧
    tick_collisions far_overlap_store 0 ≠ brute_force_collisions far_overlap_store 0 := by
  with_unfolding_all decide

/-- C1 (amended): the grid-based evaluator never fabricates a pair, and it
agrees exactly with the brute-force all-pairs baseline at every tick time
provided every pair's radius sum is at most the grid cell size (50); without
that bound it can miss pairs, as `c1_counterexample` shows. -/
theorem c1_grid_matches_brute_force (asteroids : List Body) (t : ℚ) :
    tick_collisions asteroids t ⊆ brute_force_collisions asteroids t ∧
    ((∀ a ∈ asteroids, ∀ b ∈ asteroids, a.r + b.r ≤ GRID_CELL_SIZE) →
      tick_collisions asteroids t = brute_force_collisions asteroids t) := by
  refine ⟨tick_collisions_subset_brute_force asteroids t, fun hr => ?_⟩
  apply Finset.Subset.antisymm (tick_collisions_subset_brute_force asteroids t)
  intro e he
  rw [mem_brute_force_collisions] at he
  obtain ⟨a, ha, b, hb, hid, hcol, he⟩ := he
  obtain ⟨a0, ha0, ha0'⟩ := mem_snaps.mp ha
  obtain ⟨b0, hb0, hb0'⟩ := mem_snaps.mp hb
  have hra : a.r = a0.r := by rw [← ha0']; rfl
  have hrb : b.r = b0.r := by rw [← hb0']; rfl
  subst he
  exact mem_tick_collisions_of_collides ha hb hid hcol
    (by rw [hra, hrb]; exact hr a0 ha0 b0 hb0)

/-- Witness for C1 at a concrete input satisfying the radius-sum bound. -/
theorem c1_witness :
    tick_collisions near_pair_store 0 ⊆ brute_force_collisions near_pair_store 0 ∧
    tick_collisions near_pair_store 0 = brute_force_collisions near_pair_store 0 :=
  ⟨(c1_grid_matches_brute_force near_pair_store 0).1,
   (c1_grid_matches_brute_force near_pair_store 0).2 (by with_unfolding_all decide)⟩

/-! ## C2, C4, C6, C10 -/

/-- C2: for every returned event `(time, idLow, idHigh)`, recomputing the two
bodies' positions at `time` as `x0 + vx*t, y0 + vy*t` yields Euclidean
distance strictly below the radius sum; and a pair whose distance equals its
radius sum (tangency) never satisfies the collision test, hence is never
reported. -/
theorem c2_events_strictly_collide (asteroids : List Body) (time_step max_time : ℚ)
    (e : CollisionEvent) (he : e ∈ simulate_motion asteroids time_step max_time) :
    (∃ a ∈ asteroids, ∃ b ∈ asteroids, a.id = e.2.1 ∧ b.id = e.2.2 ∧
      Real.sqrt ((((b.x + b.vx * e.1) - (a.x + a.vx * e.1))^2
          + ((b.y + b.vy * e.1) - (a.y + a.vy * e.1))^2 : ℚ) : ℝ)
        < ((a.r + b.r : ℚ) : ℝ)) ∧
    (∀ p q : Snap,
      Real.sqrt (((q.x - p.x)^2 + (q.y - p.y)^2 : ℚ) : ℝ) = ((p.r + q.r : ℚ) : ℝ) →
      ¬ collides p q) := by
  constructor
  · rw [mem_simulate_motion] at he
    obtain ⟨i, -, he⟩ := he
    rw [mem_tick_collisions] at he
    obtain ⟨sa, hsa, sb, hsb, -, hid, hcol, he⟩ := he
    obtain ⟨a, ha, ha'⟩ := mem_snaps.mp hsa
    obtain ⟨b, hb, hb'⟩ := mem_snaps.mp hsb
    subst he
    subst ha'
    subst hb'
    refine ⟨a, ha, b, hb, rfl, rfl, ?_⟩
    simpa [snap_at] using (collides_iff_sqrt_lt (snap_at a (tick_time time_step i))
      (snap_at b (tick_time time_step i))).mp hcol
  · intro p q htan hcol
    have hlt := (collides_iff_sqrt_lt p q).mp hcol
    rw [htan] at hlt
    exact lt_irrefl _ hlt

/-- Witness for C2: the event `(0, 1, 2)` returned on `near_pair_store`. -/
theorem c2_witness :
    (∃ a ∈ near_pair_store, ∃ b ∈ near_pair_store, a.id = 1 ∧ b.id = 2 ∧
      Real.sqrt ((((b.x + b.vx * 0) - (a.x + a.vx * 0))^2
          + ((b.y + b.vy * 0) - (a.y + a.vy * 0))^2 : ℚ) : ℝ)
        < ((a.r + b.r : ℚ) : ℝ)) ∧
    (∀ p q : Snap,
      Real.sqrt (((q.x - p.x)^2 + (q.y - p.y)^2 : ℚ) : ℝ) = ((p.r + q.r : ℚ) : ℝ) →
      ¬ collides p q) :=
  c2_events_strictly_collide near_pair_store 1 0 (0, 1, 2) (by with_unfolding_all decide)

/-- C4: every returned event has `idLow < idHigh`. -/
theorem c4_events_canonically_oriented (asteroids : List Body) (time_step max_time : ℚ)
    (e : CollisionEvent) (he : e ∈ simulate_motion asteroids time_step max_time) :
    e.2.1 < e.2.2 := by
  rw [mem_simulate_motion] at he
  obtain ⟨i, -, he⟩ := he
  rw [mem_tick_collisions] at he
  obtain ⟨a, -, b, -, -, hid, -, he⟩ := he
  rw [he]
  exact hid

/-- Witness for C4 at the event `(0, 1, 2)` returned on `near_pair_store`. -/
theorem c4_witness : (1 : ℤ) < (2 : ℤ) :=
  c4_events_canonically_oriented near_pair_store 1 0 (0, 1, 2) (by with_unfolding_all decide)

/-- C6: the returned list is sorted ascending by the lexicographic order on
the triple `(time, idLow, idHigh)`. -/
theorem c6_output_sorted (asteroids : List Body) (time_step max_time : ℚ) :
    List.Sorted (fun e f : CollisionEvent =>
        e.1 < f.1 ∨ (e.1 = f.1 ∧ (e.2.1 < f.2.1 ∨ (e.2.1 = f.2.1 ∧ e.2.2 ≤ f.2.2))))
      (simulate_motion asteroids time_step max_time) :=
  Finset.sort_sorted ev_le _

/-- C10: no returned event pairs an id with itself; in particular, two
distinct bodies carrying the same id are never reported as colliding with
each other, whatever their positions and radii (the `id1 >= id2` guard
skips every same-id comparison). -/
theorem c10_no_self_id_events (asteroids : List Body) (time_step max_time : ℚ) :
    (simulate_motion asteroids time_step max_time).all
      (fun e => e.2.1 != e.2.2) = true := by
  rw [List.all_eq_true]
  intro e he
  rw [bne_iff_ne]
  rw [mem_simulate_motion] at he
  obtain ⟨i, -, he⟩ := he
  rw [mem_tick_collisions] at he
  obtain ⟨a, -, b, -, -, hid, -, he⟩ := he
  rw [he]
  exact ne_of_lt hid

/-! ## C3: event multiplicity -/

/-- C3, counterexample: the two `far_overlap_store` bodies have distance
below their radius sum at the two distinct tick times 0 and 1 of the run
`time_step = 1, max_time = 1`, yet the result contains no event at all
(the grid scan never compares them), so the claimed two events do not
appear. -/
theorem c3_counterexample :
    tick_time 1 0 ≠ tick_time 1 1 ∧
    (0 : ℕ) < (num_ticks 1 1 + 1).toNat ∧ (1 : ℕ) < (num_ticks 1 1 + 1).toNat ∧
    collides (snap_at ⟨1, 0, 0, 300, 0, 0⟩ (tick_time 1 0))
      (snap_at ⟨2, 500, 0, 300, 0, 0⟩ (tick_time 1 0)) ∧
    collides (snap_at ⟨1, 0, 0, 300, 0, 0⟩ (tick_time 1 1))
      (snap_at ⟨2, 500, 0, 300, 0, 0⟩ (tick_time 1 1)) ∧
    simulate_motion far_overlap_store 1 1 = [] := by
  with_unfolding_all decide

/-- C3 (amended): the result never contains an event twice (at most one
event per pair and tick); and for a pair whose radius sum is at most the
cell size, two distinct tick times at each of which the pair's distance is
below its radius sum yield two distinct events in the result — there is no
cross-tick deduplication.  Without the radius-sum bound the second half
fails (`c3_counterexample`). -/
theorem c3_event_multiplicity (asteroids : List Body) (time_step max_time : ℚ) :
    (simulate_motion asteroids time_step max_time).Nodup ∧
    (∀ a ∈ asteroids, ∀ b ∈ asteroids, ∀ i j : ℕ,
      i < (num_ticks time_step max_time + 1).toNat →
      j < (num_ticks time_step max_time + 1).toNat →
      tick_time time_step i ≠ tick_time time_step j →
      a.id < b.id → a.r + b.r ≤ GRID_CELL_SIZE →
      collides (snap_at a (tick_time time_step i)) (snap_at b (tick_time time_step i)) →
      collides (snap_at a (tick_time time_step j)) (snap_at b (tick_time time_step j)) →
      (tick_time time_step i, a.id, b.id) ∈ simulate_motion asteroids time_step max_time ∧
      (tick_time time_step j, a.id, b.id) ∈ simulate_motion asteroids time_step max_time ∧
      ((tick_time time_step i, a.id, b.id) : CollisionEvent)
        ≠ (tick_time time_step j, a.id, b.id)) := by
  constructor
  · exact Finset.sort_nodup ev_le _
  · intro a ha b hb i j hi hj hne hid hr hci hcj
    refine ⟨?_, ?_, fun h => hne (congrArg Prod.fst h)⟩
    · exact mem_simulate_motion.mpr ⟨i, hi, mem_tick_collisions_of_collides
        (mem_snaps.mpr ⟨a, ha, rfl⟩) (mem_snaps.mpr ⟨b, hb, rfl⟩) hid hci hr⟩
    · exact mem_simulate_motion.mpr ⟨j, hj, mem_tick_collisions_of_collides
        (mem_snaps.mpr ⟨a, ha, rfl⟩) (mem_snaps.mpr ⟨b, hb, rfl⟩) hid hcj hr⟩

/-- Witness for C3: on `near_pair_store` with `time_step = 1, max_time = 1`
the pair collides at the two tick times and both events are present and
distinct. -/
theorem c3_witness :
    (simulate_motion near_pair_store 1 1).Nodup ∧
    ((tick_time 1 0, (1 : ℤ), (2 : ℤ)) ∈ simulate_motion near_pair_store 1 1 ∧
     (tick_time 1 1, (1 : ℤ), (2 : ℤ)) ∈ simulate_motion near_pair_store 1 1 ∧
     ((tick_time 1 0, (1 : ℤ), (2 : ℤ)) : CollisionEvent) ≠ (tick_time 1 1, 1, 2)) :=
  ⟨(c3_event_multiplicity near_pair_store 1 1).1,
   (c3_event_multiplicity near_pair_store 1 1).2 ⟨1, 0, 0, 1, 0, 0⟩
     (by with_unfolding_all decide) ⟨2, 1, 0, 1, 0, 0⟩ (by with_unfolding_all decide) 0 1
     (by with_unfolding_all decide) (by with_unfolding_all decide)
     (by with_unfolding_all decide) (by with_unfolding_all decide)
     (by with_unfolding_all decide) (by with_unfolding_all decide)
     (by with_unfolding_all decide)⟩

/-! ## C7: grid construction is a partition -/

/-- C7: at each tick time `t`, every body of the store is placed in exactly
one grid cell, namely `(floor(x_t / cellSize), floor(y_t / cellSize))` for
its closed-form position `x_t = x0 + vx*t, y_t = y0 + vy*t` computed from
the original record.  The floor semantics holds for negative coordinates
too (Python `//` is floor division, not truncation toward zero). -/
theorem c7_grid_partition (asteroids : List Body) (t : ℚ) (a : Body) (ha : a ∈ asteroids) :
    snap_at a t ∈ gridAt asteroids t
      (⌊(a.x + a.vx * t) / GRID_CELL_SIZE⌋, ⌊(a.y + a.vy * t) / GRID_CELL_SIZE⌋) ∧
    ∀ c : ℤ × ℤ, snap_at a t ∈ gridAt asteroids t c →
      c = (⌊(a.x + a.vx * t) / GRID_CELL_SIZE⌋, ⌊(a.y + a.vy * t) / GRID_CELL_SIZE⌋) := by
  have hc : cell_of (snap_at a t)
      = (⌊(a.x + a.vx * t) / GRID_CELL_SIZE⌋, ⌊(a.y + a.vy * t) / GRID_CELL_SIZE⌋) := rfl
  constructor
  · exact mem_gridAt.mpr ⟨mem_snaps.mpr ⟨a, ha, rfl⟩, hc⟩
  · intro c hcell
    rw [← (mem_gridAt.mp hcell).2, hc]

/-- Witness for C7 at a body with negative position coordinates
(`x_1 = -58`, `y_1 = -7`, cells `-2` and `-1`, not the truncated `-1`/`0`). -/
theorem c7_witness :
    snap_at ⟨1, -60, -10, 1, 2, 3⟩ 1 ∈ gridAt [⟨1, -60, -10, 1, 2, 3⟩] 1
      (⌊((-60 : ℚ) + 2 * 1) / GRID_CELL_SIZE⌋, ⌊((-10 : ℚ) + 3 * 1) / GRID_CELL_SIZE⌋) ∧
    ∀ c : ℤ × ℤ, snap_at ⟨1, -60, -10, 1, 2, 3⟩ 1 ∈ gridAt [⟨1, -60, -10, 1, 2, 3⟩] 1 c →
      c = (⌊((-60 : ℚ) + 2 * 1) / GRID_CELL_SIZE⌋, ⌊((-10 : ℚ) + 3 * 1) / GRID_CELL_SIZE⌋) :=
  c7_grid_partition [⟨1, -60, -10, 1, 2, 3⟩] 1 ⟨1, -60, -10, 1, 2, 3⟩ (by simp)

/-! ## C5: the tick schedule -/

theorem round_half_even_intCast (n : ℤ) : round_half_even (n : ℚ) = n := by
  unfold round_half_even
  rw [Int.floor_intCast]
  norm_num

theorem abs_round_half_even_sub (q : ℚ) : |(round_half_even q : ℚ) - q| ≤ 1/2 := by
  unfold round_half_even
  have h0 : (⌊q⌋ : ℚ) ≤ q := Int.floor_le q
  have h1 : q < ⌊q⌋ + 1 := Int.lt_floor_add_one q
  split
  · rename_i h
    rw [abs_le]
    constructor <;> linarith
  · rename_i h
    split
    · rename_i h'
      push_cast
      rw [abs_le]
      constructor <;> linarith
    · rename_i h'
      rw [not_lt] at h h'
      split
      · rw [abs_le]
        constructor <;> linarith
      · push_cast
        rw [abs_le]
        constructor <;> linarith

/-- The code's tick time is within half a tenth of the exact `i * timeStep`. -/
theorem tick_time_bound (time_step : ℚ) (i : ℕ) :
    |tick_time time_step i - (i : ℚ) * time_step| ≤ 1/20 := by
  have h := abs_round_half_even_sub (10 * ((i : ℚ) * time_step))
  rw [abs_le] at h ⊢
  unfold tick_time py_round1
  constructor <;> [linarith [h.1]; linarith [h.2]]

/-- For steps of at least one tenth, rounded tick times are strictly
increasing in the tick index. -/
theorem tick_time_lt_of_lt {time_step : ℚ} (hts : 1/10 ≤ time_step) {i j : ℕ}
    (hij : i < j) :
    tick_time time_step i < tick_time time_step j := by
  rcases eq_or_lt_of_le hts with heq | hlt
  · have hexact : ∀ k : ℕ, tick_time time_step k = (k : ℚ) / 10 := by
      intro k
      unfold tick_time py_round1
      rw [← heq]
      have h10 : 10 * ((k : ℚ) * (1/10)) = ((k : ℤ) : ℚ) := by push_cast; ring
      rw [h10, round_half_even_intCast]
      push_cast
      ring
    rw [hexact i, hexact j]
    have : (i : ℚ) < (j : ℚ) := by exact_mod_cast hij
    linarith
  · have b1 := tick_time_bound time_step i
    have b2 := tick_time_bound time_step j
    rw [abs_le] at b1 b2
    have hj0 : (i + 1 : ℕ) ≤ j := hij
    have hj1 : ((i : ℚ) + 1) ≤ (j : ℚ) := by exact_mod_cast hj0
    have hj : ((i : ℚ) + 1) * time_step ≤ (j : ℚ) * time_step :=
      mul_le_mul_of_nonneg_right hj1 (by linarith)
    rw [add_mul, one_mul] at hj
    linarith [b1.2, b2.1]

/-- C5, counterexample: with `timeStep = 1/100` the code rounds every tick
time to ONE decimal place (the hard-coded `round(..., 1)`), not to the
step's own precision: tick 1 receives time `0`, not `1/100`, and collides
with tick 0's time, so distinct tick indices do not yield distinct tick
times. -/
theorem c5_counterexample :
    tick_time (1/100) 1 = tick_time (1/100) 0 ∧ (1 : ℕ) ≠ 0 ∧
    tick_time (1/100) 1 ≠ 1/100 := by
  with_unfolding_all decide

/-- C5 (amended): for `timeStep > 0` and `maxTime ≥ 0` the driver evaluates
exactly the tick indices `0 .. floor(maxTime/timeStep)` (the code's `int`
truncation equals `floor` on this domain); each tick's time is
`tickIndex * timeStep` rounded to the fixed precision of ONE decimal place
(a multiple of `1/10` within `1/20` of the exact product) — not to the
decimal precision of the `timeStep`; and distinct tick indices yield
distinct tick times provided `timeStep ≥ 1/10` (for smaller steps they can
coincide, see `c5_counterexample`). -/
theorem c5_tick_schedule (time_step max_time : ℚ) (h1 : 0 < time_step)
    (h2 : 0 ≤ max_time) :
    num_ticks time_step max_time = ⌊max_time / time_step⌋ ∧
    (∀ i : ℕ, ∃ k : ℤ, tick_time time_step i = (k : ℚ) / 10 ∧
      |tick_time time_step i - (i : ℚ) * time_step| ≤ 1/20) ∧
    (1/10 ≤ time_step → ∀ i j : ℕ,
      tick_time time_step i = tick_time time_step j → i = j) := by
  refine ⟨?_, ?_, ?_⟩
  · unfold num_ticks py_int
    rw [if_pos (div_nonneg h2 (le_of_lt h1))]
  · intro i
    exact ⟨round_half_even (10 * ((i : ℚ) * time_step)), rfl, tick_time_bound time_step i⟩
  · intro hts i j hij
    by_contra hne
    rcases Nat.lt_or_ge i j with h | h
    · exact absurd hij (ne_of_lt (tick_time_lt_of_lt hts h))
    · have h' : j < i := lt_of_le_of_ne h fun hj => hne hj.symm
      exact absurd hij.symm (ne_of_lt (tick_time_lt_of_lt hts h'))

/-- Witness for C5 at the source's own configuration `timeStep = 1/10`,
`maxTime = 1`. -/
theorem c5_witness :
    num_ticks (1/10) 1 = ⌊(1 : ℚ) / (1/10)⌋ ∧
    (∀ i : ℕ, ∃ k : ℤ, tick_time (1/10) i = (k : ℚ) / 10 ∧
      |tick_time (1/10) i - (i : ℚ) * (1/10)| ≤ 1/20) ∧
    (1/10 ≤ (1/10 : ℚ) → ∀ i j : ℕ,
      tick_time (1/10) i = tick_time (1/10) j → i = j) :=
  c5_tick_schedule (1/10) 1 (by norm_num) (by norm_num)

/-! ## C8: totality of the engine's arithmetic

The source's potentially-partial operations are the division
`max_time / time_step` (line 62), the floor divisions by the cell size
inside `get_hash_cell` (line 49), and the `math.sqrt` domain (line 119);
`grid[...]` lookups cannot fail on a `defaultdict`.  Each is given a
checked variant returning `none` on its fatal condition, and the checked
pipeline is proved to succeed with the unchecked result whenever
`timeStep > 0` (the cell size is the positive constant 50). -/

/-- Sequence a list of checked results, failing if any step failed. -/
def opt_seq {α : Type} : List (Option α) → Option (List α)
  | [] => some []
  | none :: _ => none
  | some a :: rest => (opt_seq rest).map (fun l => a :: l)

theorem opt_seq_map_eq_some {α β : Type} (l : List α) (f : α → Option β) (g : α → β)
    (h : ∀ a ∈ l, f a = some (g a)) : opt_seq (l.map f) = some (l.map g) := by
  induction l with
  | nil => rfl
  | cons x xs ih =>
    rw [List.map_cons, List.map_cons, h x (List.mem_cons_self x xs), opt_seq,
      ih (fun a ha => h a (List.mem_cons_of_mem x ha))]
    rfl

/-- Division with Python's fatal `ZeroDivisionError` made explicit. -/
def checked_div (a b : ℚ) : Option ℚ :=
  if b = 0 then none else some (a / b)

/-- `get_hash_cell` with its two floor divisions guarded. -/
def checked_hash_cell (x y cell_size : ℚ) : Option (ℤ × ℤ) :=
  (checked_div x cell_size).bind (fun qx =>
    (checked_div y cell_size).map (fun qy => (⌊qx⌋, ⌊qy⌋)))

/-- The `math.sqrt` domain guard: fatal on a negative radicand. -/
def checked_sqrt_sq (d : ℚ) : Option ℚ :=
  if d < 0 then none else some d

/-- The guarded inner-loop body: the id guard short-circuits before the
distance computation, exactly as `continue` does in the source. -/
def checked_pair_event (t : ℚ) (a1 a2 : Snap) : Option (Option CollisionEvent) :=
  if a1.id < a2.id then
    (checked_sqrt_sq ((a2.x - a1.x)^2 + (a2.y - a1.y)^2)).map
      (fun _ => if collides a1 a2 then some (t, a1.id, a2.id) else none)
  else some none

theorem checked_pair_event_eq (t : ℚ) (a1 a2 : Snap) :
    checked_pair_event t a1 a2 = some (pair_event t a1 a2) := by
  unfold checked_pair_event checked_sqrt_sq pair_event
  by_cases hid : a1.id < a2.id
  · rw [if_pos hid, if_neg (not_lt.mpr (by positivity))]
    by_cases hc : collides a1 a2 <;> simp [hid, hc]
  · rw [if_neg hid]
    simp [hid]

/-- `check_collisions_in_cell` with every candidate's distance computation
guarded. -/
def checked_cell (grid : ℤ × ℤ → List Snap) (cell : ℤ × ℤ) (t : ℚ) :
    Option (Finset CollisionEvent) :=
  (opt_seq (((neighbor_cells cell).filter (fun nb => !(grid nb).isEmpty)).flatMap (fun nb =>
    (grid cell).flatMap (fun a1 =>
      (grid nb).map (fun a2 => checked_pair_event t a1 a2))))).map
    (fun l => l.reduceOption.toFinset)

theorem opt_seq_map_some {α : Type} (m : List α) : opt_seq (m.map some) = some m := by
  induction m with
  | nil => rfl
  | cons x xs ih => rw [List.map_cons, opt_seq, ih]; rfl

theorem reduceOption_map_eq_filterMap {α β : Type} (l : List α) (f : α → Option β) :
    (l.map f).reduceOption = l.filterMap f := by
  show List.filterMap id (l.map f) = l.filterMap f
  rw [List.filterMap_map]
  rfl

theorem reduceOption_flatMap {α β : Type} (l : List α) (f : α → List (Option β)) :
    (l.flatMap f).reduceOption = l.flatMap (fun a => (f a).reduceOption) := by
  show List.filterMap id (l.flatMap f) = _
  rw [List.filterMap_flatMap]
  rfl

theorem checked_cell_eq (grid : ℤ × ℤ → List Snap) (cell : ℤ × ℤ) (t : ℚ) :
    checked_cell grid cell t = some (check_collisions_in_cell grid cell t) := by
  unfold checked_cell check_collisions_in_cell
  have hsome :
      ((neighbor_cells cell).filter (fun nb => !(grid nb).isEmpty)).flatMap (fun nb =>
          (grid cell).flatMap (fun a1 =>
            (grid nb).map (fun a2 => checked_pair_event t a1 a2)))
        = (((neighbor_cells cell).filter (fun nb => !(grid nb).isEmpty)).flatMap (fun nb =>
            (grid cell).flatMap (fun a1 =>
              (grid nb).map (fun a2 => pair_event t a1 a2)))).map some := by
    rw [List.map_flatMap]
    apply List.flatMap_congr
    intro nb _
    rw [List.map_flatMap]
    apply List.flatMap_congr
    intro a1 _
    rw [List.map_map]
    apply List.map_congr_left
    intro a2 _
    simp only [Function.comp_apply, checked_pair_event_eq]
  rw [hsome, opt_seq_map_some, Option.map_some']
  congr 1
  rw [reduceOption_flatMap]
  congr 1
  apply List.flatMap_congr
  intro nb _
  rw [reduceOption_flatMap]
  apply List.flatMap_congr
  intro a1 _
  exact reduceOption_map_eq_filterMap (grid nb) (pair_event t a1)

theorem checked_hash_cell_eq (x y cell_size : ℚ) (h : cell_size ≠ 0) :
    checked_hash_cell x y cell_size = some (get_hash_cell x y cell_size) := by
  unfold checked_hash_cell checked_div get_hash_cell
  rw [if_neg h, if_neg h]
  rfl

/-- The grid build of one tick with every hash-cell division guarded. -/
def checked_grid_build (asteroids : List Body) (t : ℚ) : Option (List (ℤ × ℤ)) :=
  opt_seq ((snaps asteroids t).map (fun s => checked_hash_cell s.x s.y GRID_CELL_SIZE))

theorem checked_grid_build_eq (asteroids : List Body) (t : ℚ) :
    checked_grid_build asteroids t = some ((snaps asteroids t).map cell_of) := by
  unfold checked_grid_build
  exact opt_seq_map_eq_some _ _ cell_of
    (fun s _ => checked_hash_cell_eq s.x s.y GRID_CELL_SIZE (by norm_num [GRID_CELL_SIZE]))

/-- One tick of the engine with every partial operation guarded: build the
grid (checked cell hashes), then evaluate every occupied cell (checked
distance computations) and union the per-cell sets. -/
def checked_tick (asteroids : List Body) (t : ℚ) : Option (Finset CollisionEvent) :=
  (checked_grid_build asteroids t).bind (fun _ =>
    (opt_seq ((occupied_cells asteroids t).map
        (fun cell => checked_cell (gridAt asteroids t) cell t))).map
      (fun sets => sets.foldr (· ∪ ·) ∅))

theorem checked_tick_eq (asteroids : List Body) (t : ℚ) :
    checked_tick asteroids t = some (tick_collisions asteroids t) := by
  unfold checked_tick
  rw [checked_grid_build_eq,
    opt_seq_map_eq_some _ _ (fun cell => check_collisions_in_cell (gridAt asteroids t) cell t)
      (fun cell _ => checked_cell_eq (gridAt asteroids t) cell t)]
  show some _ = some _
  congr 1
  show (List.map (fun cell => check_collisions_in_cell (gridAt asteroids t) cell t)
      (occupied_cells asteroids t)).foldr (fun x1 x2 => x1 ∪ x2) ∅
    = tick_collisions asteroids t
  rw [List.foldr_map]
  rfl

/-- `simulate_motion` with every potentially fatal arithmetic step made
explicit: the tick-count division, the per-body cell hashing divisions and
the square-root domain at every distance test. -/
def simulate_motion_checked (asteroids : List Body) (time_step max_time : ℚ) :
    Option (List CollisionEvent) :=
  (checked_div max_time time_step).bind (fun q =>
    (opt_seq ((List.range (py_int q + 1).toNat).map
        (fun step => checked_tick asteroids (tick_time time_step step)))).map
      (fun sets => Finset.sort ev_le (sets.foldr (· ∪ ·) ∅)))

/-- C8: under the precondition `timeStep > 0` (the cell size being the
positive constant 50), every guarded operation of the engine succeeds —
no division by zero, no negative square-root radicand, no failing lookup —
and the checked engine returns exactly the unchecked result for every body
store. -/
theorem c8_engine_total (asteroids : List Body) (time_step max_time : ℚ)
    (hts : 0 < time_step) :
    simulate_motion_checked asteroids time_step max_time
      = some (simulate_motion asteroids time_step max_time) := by
  unfold simulate_motion_checked checked_div
  rw [if_neg (ne_of_gt hts)]
  show (opt_seq _).map _ = _
  rw [opt_seq_map_eq_some _ _
    (fun step => tick_collisions asteroids (tick_time time_step step))
    (fun step _ => checked_tick_eq asteroids (tick_time time_step step))]
  show some _ = some _
  congr 1
  show Finset.sort ev_le
      ((List.map (fun step => tick_collisions asteroids (tick_time time_step step))
        (List.range (py_int (max_time / time_step) + 1).toNat)).foldr (fun x1 x2 => x1 ∪ x2) ∅)
    = simulate_motion asteroids time_step max_time
  unfold simulate_motion
  congr 1
  unfold collision_set num_ticks
  rw [List.foldr_map]

/-- Witness for C8 on a concrete store and positive step. -/
theorem c8_witness :
    simulate_motion_checked near_pair_store 1 0
      = some (simulate_motion near_pair_store 1 0) :=
  c8_engine_total near_pair_store 1 0 (by norm_num)

/-! ## C9: the reader's accepted line shapes

`read_asteroids` (`main.py`, lines 12-41) is modelled on the
whitespace-split field lists of the input lines; Python's `float`/`int`
numeric grammars are library built-ins outside this repository, so they are
abstracted as parse parameters returning `none` exactly where the built-ins
raise `ValueError`. -/

/-- The per-line decision of the reader loop (`main.py`, lines 25-40):
reject a field count outside {5, 6} (lines 26-28); with 5 fields parse all
as reals and use the 1-based line number as id (lines 31-33); with 6 fields
parse the head as integer id and the rest as reals (lines 34-36); any
`ValueError` rejects the line (lines 39-40). -/
def parse_line {τ : Type} (parse_float : τ → Option ℚ) (parse_int : τ → Option ℤ)
    (line_num : ℕ) (parts : List τ) : Option Body :=
  if ¬ (parts.length = 5 ∨ parts.length = 6) then none
  else if parts.length = 5 then
    match opt_seq (parts.map parse_float) with
    | some [x, y, r, vx, vy] => some ⟨(line_num : ℤ), x, y, r, vx, vy⟩
    | _ => none
  else
    match parts with
    | p0 :: rest =>
      match parse_int p0, opt_seq (rest.map parse_float) with
      | some i, some [x, y, r, vx, vy] => some ⟨i, x, y, r, vx, vy⟩
      | _, _ => none
    | [] => none

/-- The reader loop (`main.py`, lines 22-41): 1-based line numbering over
all lines, skipped ones included, appending one body per accepted line. -/
def read_asteroids_from {τ : Type} (parse_float : τ → Option ℚ) (parse_int : τ → Option ℤ) :
    ℕ → List (List τ) → List Body
  | _, [] => []
  | line_num, parts :: rest =>
    match parse_line parse_float parse_int line_num parts with
    | some b => b :: read_asteroids_from parse_float parse_int (line_num + 1) rest
    | none => read_asteroids_from parse_float parse_int (line_num + 1) rest

/-- `read_asteroids` (`main.py`, lines 12-41), starting at line number 1. -/
def read_asteroids {τ : Type} (parse_float : τ → Option ℚ) (parse_int : τ → Option ℤ)
    (lines : List (List τ)) : List Body :=
  read_asteroids_from parse_float parse_int 1 lines

/-- Spec-side per-line acceptance, written from the spec's words: a line of
5 numeric fields `x y radius vx vy` yields a body with the 1-based line
number as id; a line of 6 fields `id x y radius vx vy` parses the first
field as the integer id and the other five as reals; every other field
count, or any non-numeric field where a number is expected, yields no
body. -/
def spec_line_shape {τ : Type} (parse_float : τ → Option ℚ) (parse_int : τ → Option ℤ)
    (line_num : ℕ) (parts : List τ) : Option Body :=
  match parts with
  | [t1, t2, t3, t4, t5] =>
    match parse_float t1, parse_float t2, parse_float t3, parse_float t4, parse_float t5 with
    | some x, some y, some r, some vx, some vy => some ⟨(line_num : ℤ), x, y, r, vx, vy⟩
    | _, _, _, _, _ => none
  | [t0, t1, t2, t3, t4, t5] =>
    match parse_int t0, parse_float t1, parse_float t2, parse_float t3, parse_float t4,
        parse_float t5 with
    | some i, some x, some y, some r, some vx, some vy => some ⟨i, x, y, r, vx, vy⟩
    | _, _, _, _, _, _ => none
  | _ => none

theorem parse_line_eq_spec {τ : Type} (pf : τ → Option ℚ) (pint : τ → Option ℤ)
    (n : ℕ) (parts : List τ) :
    parse_line pf pint n parts = spec_line_shape pf pint n parts := by
  rcases parts with _ | ⟨t1, _ | ⟨t2, _ | ⟨t3, _ | ⟨t4, _ | ⟨t5, _ | ⟨t6, rest⟩⟩⟩⟩⟩⟩
  · rfl
  · rfl
  · rfl
  · rfl
  · rfl
  · rcases h1 : pf t1 with _ | x <;> rcases h2 : pf t2 with _ | y <;>
      rcases h3 : pf t3 with _ | r <;> rcases h4 : pf t4 with _ | vx <;>
      rcases h5 : pf t5 with _ | vy <;>
      simp [parse_line, spec_line_shape, opt_seq, h1, h2, h3, h4, h5]
  · rcases rest with _ | ⟨t7, rest⟩
    · rcases h0 : pint t1 with _ | i <;> rcases h2 : pf t2 with _ | x <;>
        rcases h3 : pf t3 with _ | y <;> rcases h4 : pf t4 with _ | r <;>
        rcases h5 : pf t5 with _ | vx <;> rcases h6 : pf t6 with _ | vy <;>
        simp [parse_line, spec_line_shape, opt_seq, h0, h2, h3, h4, h5, h6]
    · have hlen : ¬ ((t1 :: t2 :: t3 :: t4 :: t5 :: t6 :: t7 :: rest).length = 5 ∨
          (t1 :: t2 :: t3 :: t4 :: t5 :: t6 :: t7 :: rest).length = 6) := by
        simp
      rw [parse_line, if_pos hlen]
      rfl

theorem read_asteroids_from_eq {τ : Type} (pf : τ → Option ℚ) (pint : τ → Option ℤ)
    (lines : List (List τ)) :
    ∀ n : ℕ, read_asteroids_from pf pint n lines
      = (List.enumFrom n lines).filterMap (fun p => spec_line_shape pf pint p.1 p.2) := by
  induction lines with
  | nil => intro n; rfl
  | cons parts rest ih =>
    intro n
    simp only [read_asteroids_from, List.enumFrom_cons, List.filterMap_cons,
      parse_line_eq_spec]
    cases h : spec_line_shape pf pint n parts with
    | none => exact ih (n + 1)
    | some b => simp [ih (n + 1)]

/-- C9: the reader accepts exactly the two declared line shapes.  For every
choice of numeric parsers and every line list: a line splitting into 5
parsed fields yields a body with the 1-based line number as id, a line of 6
fields yields a body with the first field's integer parse as id and the
other five as reals, and every line with a field count outside {5, 6} or a
failing parse contributes no body while processing continues with the
remaining lines — the whole run is the per-line filter-map over the
enumerated lines. -/
theorem c9_reader_accepts_line_shapes {τ : Type} (parse_float : τ → Option ℚ)
    (parse_int : τ → Option ℤ) (lines : List (List τ)) :
    read_asteroids parse_float parse_int lines
      = (List.enumFrom 1 lines).filterMap
          (fun p => spec_line_shape parse_float parse_int p.1 p.2) :=
  read_asteroids_from_eq parse_float parse_int lines 1
